import Mathlib

/-!
Verification of the dezoomify-rs core against its specification.

The Rust sources under `src/` are embedded shallowly: pure functions become
Lean functions, the mutable encoder state becomes explicit state passing, and
Rust `u32`/`usize` arithmetic is `Nat` with an explicit `% 2^32` where
overflow can occur.  A few helpers live in repository files that are not part
of the provided source tree (`src/vec2d.rs`, `src/tile.rs`, `src/network.rs`);
those definitions are modelled from the specification and say so in their doc
comments.
-/

namespace Dezoomify

/-- The modulus of Rust `u32` arithmetic. -/
def U32 : Nat := 4294967296

/-- Wrapping `u32` addition. -/
def wadd (a b : Nat) : Nat := (a + b) % U32

/-- Wrapping `u32` subtraction (for `a, b < U32`). -/
def wsub (a b : Nat) : Nat := (a % U32 + (U32 - b % U32)) % U32

/-- Modelled from the spec: `Vec2d` (src/vec2d.rs is not in the provided source
tree) — an unsigned 2D integer vector `{x, y}` with component-wise operations
on `u32` values. -/
structure Vec2d where
  x : Nat
  y : Nat
deriving DecidableEq

/-- Component-wise `u32` addition of vectors. -/
def Vec2d.add (a b : Vec2d) : Vec2d := ⟨wadd a.x b.x, wadd a.y b.y⟩

/-- Component-wise `u32` subtraction of vectors. -/
def Vec2d.sub (a b : Vec2d) : Vec2d := ⟨wsub a.x b.x, wsub a.y b.y⟩

/-- Component-wise minimum of vectors. -/
def Vec2d.min (a b : Vec2d) : Vec2d := ⟨Nat.min a.x b.x, Nat.min a.y b.y⟩

/-- Modelled from the spec: `Vec2d::fits_inside` (src/vec2d.rs is not in the
provided source tree) — containment of a point in a rectangle anchored at the
origin: both components are at most those of `other`. -/
def Vec2d.fits_inside (a other : Vec2d) : Bool :=
  decide (a.x ≤ other.x ∧ a.y ≤ other.y)

/-- Modelled from the spec: the `Tile` value type (src/tile.rs is not in the
provided source tree) — a decoded tile with its position, the dimensions of its
pixel buffer, its pixels (as a total map, one `Nat` code per pixel), and the
optional ICC profile and EXIF metadata sidecars.  `Tile::size()` is the pixel
buffer's dimensions and `Tile::bottom_right()` is `position + size`. -/
structure Tile where
  position : Vec2d
  width : Nat
  height : Nat
  pix : Nat → Nat → Nat
  icc_profile : Option (List Nat) := none
  exif_metadata : Option (List Nat) := none

/-- `Tile::size()`: the dimensions of the tile's pixel buffer. -/
def Tile.size (t : Tile) : Vec2d := ⟨t.width, t.height⟩

/-- `Tile::bottom_right()`: `position + size` in `u32` arithmetic. -/
def Tile.bottom_right (t : Tile) : Vec2d := t.position.add t.size

/-- The canvas encoder state from src/encoder/canvas.rs: the full output
framebuffer (a total pixel map together with the canvas size) and the ICC
profile captured from the first tile that carried one. -/
structure Canvas where
  size : Vec2d
  img : Nat → Nat → Nat
  icc_profile : Option (List Nat) := none

/-- `ImageBuffer::put_pixel` as a functional update of the pixel map. -/
def putPixel (img : Nat → Nat → Nat) (X Y v : Nat) : Nat → Nat → Nat :=
  fun a b => if a = X ∧ b = Y then v else img a b

/-- One row of the blit loop of `Canvas::add_tile` (canvas.rs lines 93-97):
for `x in 0..sx`, write the converted tile pixel `(x, yy)` at canvas
coordinates `(x + mx, yy + my)` (`u32` additions). -/
def blitRow (conv : Nat → Nat) (t : Tile) (mx my yy sx : Nat)
    (img : Nat → Nat → Nat) : Nat → Nat → Nat :=
  (List.range sx).foldl
    (fun im2 x => putPixel im2 (wadd x mx) (wadd yy my) (conv (t.pix x yy))) img

/-- The nested blit loop of `Canvas::add_tile` (canvas.rs lines 91-98):
for `y in 0..sy`, blit row `y`. -/
def blitN (conv : Nat → Nat) (t : Tile) (mx my sx sy : Nat)
    (img : Nat → Nat → Nat) : Nat → Nat → Nat :=
  (List.range sy).foldl (fun im yy => blitRow conv t mx my yy sx im) img

/-- `Canvas::add_tile` (canvas.rs lines 69-100).  Returns the updated canvas
state together with `some msg` when the call returns an `io::Error` of kind
`InvalidData`.  `conv` is `Pix::from_rgba` (the identity for an `Rgba<u8>`
canvas).  The ICC profile of the first profiled tile is captured before the
position check, exactly as in the source. -/
def Canvas.add_tile (conv : Nat → Nat) (c : Canvas) (t : Tile) :
    Canvas × Option String :=
  let icc := if c.icc_profile.isNone && t.icc_profile.isSome
             then t.icc_profile else c.icc_profile
  let minPos := t.position
  let canvasSize := c.size
  if minPos.fits_inside canvasSize then
    let maxPos := t.bottom_right.min canvasSize
    let sz := maxPos.sub minPos
    let newImg := blitN conv t minPos.x minPos.y sz.x sz.y c.img
    ({ c with icc_profile := icc, img := newImg }, none)
  else
    ({ c with icc_profile := icc }, some "tile too large for image")

/-- `max_size_in_rect` from src/lib.rs lines 625-628:
`(position + tile_size).min(canvas_size) - position`. -/
def max_size_in_rect (position tile_size canvas_size : Vec2d) : Vec2d :=
  ((position.add tile_size).min canvas_size).sub position

/-- `resolve_level_index` from src/lib.rs lines 106-112. -/
def resolve_level_index (requested available_count : Nat) : Nat :=
  if requested < available_count then requested else available_count - 1

/-- `resolve_image_index` from src/lib.rs lines 115-121. -/
def resolve_image_index (requested available_count : Nat) : Nat :=
  if requested < available_count then requested else available_count - 1

/-! ### Streaming PNG encoder (src/encoder/png_encoder.rs) -/

/-- The streaming PNG encoder state: the pixel streamer (present once the PNG
header has been written, holding the tiles routed to it), the metadata embedded
in the header when it was written (`none` while no header exists), the output
size, and the `first_tile` flag. -/
structure PngEncoder where
  pixel_streamer : Option (List Tile)
  headerMeta : Option (Option (List Nat) × Option (List Nat))
  size : Vec2d
  first_tile : Bool

/-- `PngEncoder::new` (png_encoder.rs lines 21-41): no streamer, no header
written yet, `first_tile` set. -/
def PngEncoder.new (size : Vec2d) : PngEncoder :=
  { pixel_streamer := none, headerMeta := none, size := size, first_tile := true }

/-- `PngEncoder::write_header_with_metadata` (png_encoder.rs lines 43-92):
writes the PNG header embedding the given ICC profile and EXIF metadata and
installs the pixel streamer. -/
def PngEncoder.write_header_with_metadata (e : PngEncoder)
    (icc exif : Option (List Nat)) : PngEncoder :=
  { e with headerMeta := some (icc, exif), pixel_streamer := some [] }

/-- `PngEncoder::add_tile` (png_encoder.rs lines 96-124): on the first tile,
write the header with that tile's ICC profile and EXIF metadata; then route the
tile to the pixel streamer (`none` models the panic when the streamer is
missing after finalization). -/
def PngEncoder.add_tile (e : PngEncoder) (t : Tile) : Option PngEncoder :=
  let e1 := if e.first_tile then
      { e.write_header_with_metadata t.icc_profile t.exif_metadata with
          first_tile := false }
    else e
  match e1.pixel_streamer with
  | some ts => some { e1 with pixel_streamer := some (ts ++ [t]) }
  | none => none

/-- `PngEncoder::finalize` (png_encoder.rs lines 126-141), header part: if no
tile was ever added, write the header without metadata. -/
def PngEncoder.finalize (e : PngEncoder) : PngEncoder :=
  if e.first_tile then e.write_header_with_metadata none none else e

/-- `PngEncoder::add_tile` folded over a list of tiles. -/
def PngEncoder.addAll (e : PngEncoder) : List Tile → Option PngEncoder
  | [] => some e
  | t :: ts =>
    match e.add_tile t with
    | some e2 => e2.addAll ts
    | none => none

/-! ### Character-list string helpers

All string processing is done on `List Char` with structural recursion so that
every definition evaluates by kernel reduction. -/

/-- `p` is a prefix of `l`. -/
def charsPrefix : List Char → List Char → Bool
  | [], _ => true
  | _ :: _, [] => false
  | a :: as, b :: bs => a == b && charsPrefix as bs

/-- `pat` occurs as a contiguous substring of `l`. -/
def charsContains (l pat : List Char) : Bool :=
  charsPrefix pat l ||
    match l with
    | [] => false
    | _ :: rest => charsContains rest pat

/-- Split `l` around the first occurrence of the substring `pat`:
`some (before, after)` where `l = before ++ pat ++ after`. -/
def splitAtSub (pat : List Char) : List Char → Option (List Char × List Char)
  | [] => if pat = [] then some ([], []) else none
  | c :: rest =>
    if charsPrefix pat (c :: rest) then some ([], (c :: rest).drop pat.length)
    else
      match splitAtSub pat rest with
      | some (pre, post) => some (c :: pre, post)
      | none => none

/-- Split a character list on a separator character (like Rust `str::split`). -/
def splitOnChar (sep : Char) : List Char → List (List Char)
  | [] => [[]]
  | c :: rest =>
    match splitOnChar sep rest with
    | [] => [[]]
    | x :: xs => if c = sep then [] :: x :: xs else (c :: x) :: xs

/-- ASCII approximation of Rust `char::is_whitespace`. -/
def isWs (c : Char) : Bool :=
  c == ' ' || c == '\t' || c == '\n' || c == '\r' || c == '\x0b' || c == '\x0c'

/-- Rust `str::trim` on a character list. -/
def trimChars (l : List Char) : List Char :=
  ((l.dropWhile isWs).reverse.dropWhile isWs).reverse

/-- Rust `str::ends_with` for string literals. -/
def strEndsWith (s suffix : String) : Bool :=
  charsPrefix suffix.data.reverse s.data.reverse

/-- Rust `str::contains` for string literals. -/
def strContains (s pat : String) : Bool :=
  charsContains s.data pat.data

/-- Split a path at its last `/`: `(everything up to and including the last
slash, the remainder)`; the first component is empty when there is no slash. -/
def lastSlashSplit (l : List Char) : List Char × List Char :=
  let after := l.reverse.takeWhile (fun c => c != '/')
  (l.take (l.length - after.length), after.reverse)

/-- Strip leading `../` segments, counting them. -/
def stripUpRefs : List Char → Nat × List Char
  | '.' :: '.' :: '/' :: rest =>
    let p := stripUpRefs rest
    (p.1 + 1, p.2)
  | l => (0, l)

/-- Remove `n` trailing segments from a directory path ending in `/`. -/
def dropSegments (dir : List Char) : Nat → List Char
  | 0 => dir
  | n + 1 => dropSegments (lastSlashSplit dir.dropLast).1 n

/-- RFC 3986 scheme characters after the first. -/
def isSchemeChar (c : Char) : Bool :=
  c.isAlpha || c.isDigit || c == '+' || c == '-' || c == '.'

/-- A valid, non-empty URL scheme. -/
def validScheme : List Char → Bool
  | [] => false
  | c :: rest => c.isAlpha && rest.all isSchemeChar

/-- Modelled from the spec: acceptance of the external `url` crate's
`Url::parse` on the inputs this program feeds it — a string parses as a URL
when it starts with a valid scheme followed by `:` . -/
def urlParseOk (s : String) : Bool :=
  let pre := s.data.takeWhile (fun c => c != ':')
  validScheme pre && decide (pre.length < s.data.length)

/-- Modelled from the spec: `resolve_relative(base, rel)` (src/network.rs is
not in the provided source tree).  RFC 3986 reference resolution restricted to
the cases the spec lists: an absolute `rel` is returned unchanged; a `rel`
starting with `/` replaces the base's path; otherwise `rel` (after removing
leading `../` segments) is merged onto the base's directory. -/
def resolve_relative (base rel : String) : String :=
  if urlParseOk rel then rel
  else
    match splitAtSub "://".data base.data with
    | none => ⟨base.data ++ '/' :: rel.data⟩
    | some (schemePart, rest) =>
      let ap := splitAtSub ['/'] rest
      let authority := match ap with | none => rest | some (a, _) => a
      let path : List Char := match ap with | none => [] | some (_, p) => '/' :: p
      let origin := schemePart ++ "://".data ++ authority
      if rel.data.head? = some '/' then ⟨origin ++ rel.data⟩
      else
        let dir := if path = [] then ['/'] else (lastSlashSplit path).1
        let p := stripUpRefs rel.data
        ⟨origin ++ dropSegments dir p.1 ++ p.2⟩

/-- Modelled from the spec: the external `url` crate's `Url::path_segments` —
`none` for non-hierarchical URLs, otherwise the `/`-separated segments of the
path (query and fragment excluded; a URL with no path yields `[""]`). -/
def pathSegments (url : String) : Option (List String) :=
  match splitAtSub "://".data url.data with
  | none => none
  | some (_, rest) =>
    let afterAuth : List Char :=
      match splitAtSub ['/'] rest with
      | none => []
      | some (_, p) => p
    let path := afterAuth.takeWhile (fun c => c != '?' && c != '#')
    some ((splitOnChar '/' path).map (fun l => (⟨l⟩ : String)))

/-- Remove the extension of a file name: everything from the last `.` on
(Rust `rfind('.')` in `extract_title_from_url`). -/
def stripExt (seg : List Char) : List Char :=
  match splitAtSub ['.'] seg.reverse with
  | none => seg
  | some (_, after) => after.reverse

/-- Rust `Vec::join` of strings with a separator. -/
def joinSep (sep : String) : List String → String
  | [] => ""
  | [s] => s
  | s :: t :: rest => s ++ sep ++ joinSep sep (t :: rest)

/-- ASCII lower-casing of a character (the inputs the program compares are
ASCII). -/
def asciiLowerChar (c : Char) : Char :=
  if 'A' ≤ c ∧ c ≤ 'Z' then Char.ofNat (c.toNat + 32) else c

/-- ASCII approximation of Rust `str::to_lowercase`. -/
def asciiLower (s : String) : String := ⟨s.data.map asciiLowerChar⟩

/-! ### IIIF manifest types (src/iiif/manifest_types.rs) -/

/-- A potentially multilingual IIIF label.  The Rust `Map` case is a
`HashMap<String, Vec<String>>`; it is modelled as an association list, whose
order stands for the map's iteration order. -/
inductive IiifLabel where
  | str : String → IiifLabel
  | map : List (String × List String) → IiifLabel
  | null : IiifLabel
deriving DecidableEq

/-- `IiifLabel::get_english_or_first` (manifest_types.rs lines 20-36): the
first English label if non-empty, else the first non-empty head of any
language's label list, else `none`. -/
def IiifLabel.get_english_or_first : IiifLabel → Option String
  | .str s => if s = "" then none else some s
  | .map m =>
    match (m.find? (fun p => p.1 == "en")).bind
        (fun p => p.2.head?.filter (fun s => s != "")) with
    | some s => some s
    | none => m.findSome? (fun p => p.2.head?.filter (fun s => s != ""))
  | .null => none

/-- A manifest `metadata` entry. -/
structure MetadataEntry where
  label : IiifLabel
  value : IiifLabel
deriving DecidableEq

/-- `MetadataEntry::get_title` (manifest_types.rs lines 49-56). -/
def MetadataEntry.get_title (e : MetadataEntry) : Option String :=
  match e.label.get_english_or_first with
  | some l => if asciiLower l = "title" then e.value.get_english_or_first else none
  | none => none

/-- An IIIF image service entry. -/
structure ImageService where
  id : String
  service_type : String
deriving DecidableEq

/-- The body of a painting annotation when it is an image. -/
structure ImageBody where
  id : String
  image_type : String
  service : List ImageService
deriving DecidableEq

/-- `AnnotationBody` (manifest_types.rs lines 120-124). -/
inductive AnnotationBody where
  | image : ImageBody → AnnotationBody
  | emptyOrUnsupported : AnnotationBody
deriving DecidableEq

/-- An annotation (only the body is consulted by `extract_image_infos`). -/
structure Annotation where
  body : AnnotationBody
deriving DecidableEq

/-- An annotation page. -/
structure AnnotationPage where
  items : List Annotation
deriving DecidableEq

/-- A manifest canvas (named `IiifCanvas` to keep it apart from the encoder's
`Canvas`). -/
structure IiifCanvas where
  label : IiifLabel
  items : List AnnotationPage
deriving DecidableEq

/-- An IIIF presentation manifest (the fields `extract_image_infos` uses). -/
structure Manifest where
  label : IiifLabel
  items : List IiifCanvas
  metadata : Option (List MetadataEntry)
deriving DecidableEq

/-- `ExtractedImageInfo` (manifest_types.rs lines 153-165). -/
structure ExtractedImageInfo where
  image_uri : String
  manifest_label : Option String
  metadata_title : Option String
  canvas_label : Option String
  canvas_index : Nat
deriving DecidableEq

/-- `Manifest::get_metadata_title` (manifest_types.rs lines 169-174). -/
def Manifest.get_metadata_title (m : Manifest) : Option String :=
  m.metadata.bind (fun es => es.findSome? MetadataEntry.get_title)

/-- The service-selection logic of `extract_image_infos` (manifest_types.rs
lines 207-226): the first `ImageService3` if its id is non-empty (with no
fallback when it is empty), else the first `ImageService2` if its id is
non-empty, else the first service whose type contains `ImageService` and whose
id is non-empty. -/
def chooseServiceId (services : List ImageService) : Option String :=
  match services.find? (fun s => s.service_type == "ImageService3") with
  | some s3 => if s3.id = "" then none else some s3.id
  | none =>
    match services.find? (fun s => s.service_type == "ImageService2") with
    | some s2 => if s2.id = "" then none else some s2.id
    | none =>
      (services.find?
        (fun s => strContains s.service_type "ImageService" && s.id != "")).map
        (fun s => s.id)

/-- Appending `/info.json` to a resolved service URI (manifest_types.rs lines
231-237): left unchanged when it already ends with `/info.json`. -/
def infoJsonUri (resolved : String) : String :=
  if strEndsWith resolved "/info.json" then resolved
  else if strEndsWith resolved "/" then resolved ++ "info.json"
  else resolved ++ "/info.json"

/-- The per-image-body URI extraction of `extract_image_infos`
(manifest_types.rs lines 204-243). -/
def bodyImageUri (manifest_url : String) (body : ImageBody) : Option String :=
  match chooseServiceId body.service with
  | some sid => some (infoJsonUri (resolve_relative manifest_url sid))
  | none =>
    if body.id != "" && body.image_type == "Image" then
      some (resolve_relative manifest_url body.id)
    else none

/-- `Manifest::extract_image_infos` (manifest_types.rs lines 183-259). -/
def Manifest.extract_image_infos (m : Manifest) (manifest_url : String) :
    List ExtractedImageInfo :=
  let manifest_label := m.label.get_english_or_first
  let metadata_title := m.get_metadata_title
  (m.items.enum.map (fun ic =>
    let canvas_label := ic.2.label.get_english_or_first
    (ic.2.items.map (fun page =>
      page.items.filterMap (fun ann =>
        match ann.body with
        | .image body =>
          (bodyImageUri manifest_url body).map (fun uri =>
            { image_uri := uri, manifest_label := manifest_label,
              metadata_title := metadata_title, canvas_label := canvas_label,
              canvas_index := ic.1 })
        | .emptyOrUnsupported => none))).flatten)).flatten

/-- `determine_title` (src/iiif/mod.rs lines 45-69): collect the present
fragments in order, skipping a fragment already collected, and join with
`" - "`. -/
def determine_title (i : ExtractedImageInfo) : Option String :=
  let parts : List String := []
  let parts := match i.manifest_label with
    | some s => parts ++ [s]
    | none => parts
  let parts := match i.metadata_title with
    | some s => if s ∈ parts then parts else parts ++ [s]
    | none => parts
  let parts := match i.canvas_label with
    | some s => if s ∈ parts then parts else parts ++ [s]
    | none => parts
  if parts = [] then none else some (joinSep " - " parts)

/-- Keep-first deduplication of fragments: a fragment equal to an
already-included one is dropped. -/
def dedupKeepFirst (acc : List String) : List String → List String
  | [] => acc
  | s :: rest =>
    if s ∈ acc then dedupKeepFirst acc rest else dedupKeepFirst (acc ++ [s]) rest

/-- The present (`some`) fragments of an `ExtractedImageInfo`, in manifest
label, metadata title, canvas label order. -/
def presentFragments (i : ExtractedImageInfo) : List String :=
  (match i.manifest_label with | some s => [s] | none => []) ++
    (match i.metadata_title with | some s => [s] | none => []) ++
      (match i.canvas_label with | some s => [s] | none => [])

/-- The amended claim C5 stated as a reference definition following its words:
join the present fragments in order with `" - "`, dropping only a fragment
equal to an already-included one (empty fragments are kept like any other),
and return `none` exactly when no fragment remains. -/
def determine_title_spec (i : ExtractedImageInfo) : Option String :=
  let parts := dedupKeepFirst [] (presentFragments i)
  if parts = [] then none else some (joinSep " - " parts)

/-! ### Bulk-text dezoomer (src/bulk_text/mod.rs) -/

/-- `ZoomableImageUrl`: an unresolved image URL with an optional title. -/
structure ZoomableImageUrl where
  url : String
  title : Option String
deriving DecidableEq

/-- `BulkTextError::InvalidUrlOrPath` (bulk_text/mod.rs lines 4-6). -/
structure BulkTextError where
  line_number : Nat
  input : String
deriving DecidableEq

/-- Rust `str::lines`: split on `\n`, dropping the final empty piece produced
by a trailing newline, and stripping one trailing `\r` from each line. -/
def linesOf (s : String) : List String :=
  match s.data with
  | [] => []
  | l =>
    let parts := splitOnChar '\n' l
    let parts := if l.getLast? = some '\n' then parts.dropLast else parts
    parts.map (fun p =>
      (⟨match p.getLast? with
        | some c => if c = '\r' then p.dropLast else p
        | none => p⟩ : String))

/-- Rust `trimmed.splitn(2, char::is_whitespace)` followed by the
`filter(|s| !s.is_empty())` on the second part (bulk_text/mod.rs lines
102-104): the first token and the optional remainder after the first
whitespace character. -/
def splitTok (t : List Char) : List Char × Option (List Char) :=
  let tok := t.takeWhile (fun c => !(isWs c))
  let rest := t.dropWhile (fun c => !(isWs c))
  match rest with
  | [] => (tok, none)
  | _ :: after => (tok, if after = [] then none else some after)

/-- `validate_url_or_path` (bulk_text/mod.rs lines 64-84) as a predicate:
a parseable URL, an existing local path (`fsExists` stands for the
filesystem), or a templated URL containing `\x7b\x7bX\x7d\x7d` or
`\x7b\x7bY\x7d\x7d`. -/
def validate_url_or_path (fsExists : String → Bool) (input : String) : Bool :=
  urlParseOk input || fsExists input ||
    strContains input "\x7b\x7bX\x7d\x7d" || strContains input "\x7b\x7bY\x7d\x7d"

/-- `extract_title_from_url` (bulk_text/mod.rs lines 126-148): the URL's last
non-empty path segment with its extension removed, else `URL_<line_number>`. -/
def extract_title_from_url (url : String) (line_number : Nat) : Option String :=
  let fallback : Option String := some ("URL_" ++ toString line_number)
  if urlParseOk url then
    match pathSegments url with
    | some segs =>
      match segs.reverse.find? (fun s => s != "") with
      | some lastSeg =>
        let title : String := ⟨stripExt lastSeg.data⟩
        if title = "" then fallback else some title
      | none => fallback
    | none => fallback
  else fallback

/-- The per-line loop of `parse_text_urls` (bulk_text/mod.rs lines 90-123)
over the enumerated (0-based) lines: skip blank and `#` lines, validate the
first token (first error aborts), and title each kept line. -/
def parseLines (fsExists : String → Bool) :
    List (Nat × String) → Except BulkTextError (List ZoomableImageUrl)
  | [] => .ok []
  | (line_num, line) :: rest =>
    let trimmed := trimChars line.data
    if trimmed = [] ∨ trimmed.head? = some '#' then parseLines fsExists rest
    else
      let st := splitTok trimmed
      let url_part : String := ⟨st.1⟩
      if validate_url_or_path fsExists url_part then
        let title : Option String :=
          match st.2 with
          | some tc => some ⟨tc⟩
          | none => extract_title_from_url url_part (line_num + 1)
        match parseLines fsExists rest with
        | .ok urls => .ok (⟨url_part, title⟩ :: urls)
        | .error e => .error e
      else .error ⟨line_num + 1, url_part⟩

/-- `parse_text_urls` (bulk_text/mod.rs lines 90-123). -/
def parse_text_urls (fsExists : String → Bool) (content : String) :
    Except BulkTextError (List ZoomableImageUrl) :=
  parseLines fsExists (linesOf content).enum

/-- The claim-side description of an invalid line: the check `parse_text_urls`
applies, as a single-line observation. -/
def lineCheck (fsExists : String → Bool) (p : Nat × String) :
    Option BulkTextError :=
  let trimmed := trimChars p.2.data
  if trimmed = [] ∨ trimmed.head? = some '#' then none
  else
    let tok : String := ⟨(splitTok trimmed).1⟩
    if validate_url_or_path fsExists tok then none
    else some ⟨p.1 + 1, tok⟩

/-- The first invalid line of an enumerated line list. -/
def firstInvalidList (fsExists : String → Bool)
    (l : List (Nat × String)) : Option BulkTextError :=
  l.findSome? (lineCheck fsExists)

/-- The first non-blank, non-comment line of `content` whose first
whitespace-separated token is neither a parseable URL, nor an existing local
path, nor a templated URL, with its 1-based number and offending token. -/
def firstInvalidLine (fsExists : String → Bool) (content : String) :
    Option BulkTextError :=
  firstInvalidList fsExists (linesOf content).enum

/-- The claim-side description of the image one enumerated line produces:
`none` for blank lines and lines starting with `#`; otherwise the line is
split at the first whitespace into a URL and an optional custom title, and
the image is titled with the custom title when present, else the URL-derived
title (last non-empty path segment without its extension), else
`URL_<line>` (1-based). -/
def lineImage (p : Nat × String) : Option ZoomableImageUrl :=
  let trimmed := trimChars p.2.data
  if trimmed = [] ∨ trimmed.head? = some '#' then none
  else
    let st := splitTok trimmed
    let url : String := ⟨st.1⟩
    some ⟨url,
      match st.2 with
      | some tc => some ⟨tc⟩
      | none => extract_title_from_url url (p.1 + 1)⟩

/-- The claim-side list of images a bulk-text input describes: every kept line
in order, mapped by `lineImage`. -/
def bulkTextImages (content : String) : List ZoomableImageUrl :=
  (linesOf content).enum.filterMap lineImage

/-! ### Concrete instances used to exercise the theorems -/

/-- A 4x4 all-zero canvas. -/
def canvasW : Canvas := { size := ⟨4, 4⟩, img := fun _ _ => 0, icc_profile := none }

/-- A 2x2 tile at position (1, 1) with distinguishable pixel values. -/
def tileW : Tile :=
  { position := ⟨1, 1⟩, width := 2, height := 2,
    pix := fun x y => x + 10 * y + 1, icc_profile := none, exif_metadata := none }

/-- A tile whose origin lies outside `canvasW`, carrying an ICC profile. -/
def tileBad : Tile :=
  { position := ⟨9, 0⟩, width := 1, height := 1,
    pix := fun _ _ => 5, icc_profile := some [3], exif_metadata := none }

/-- The image body of the spec's service-priority scenario: both an
`ImageService2` with relative id `svc2` and an `ImageService3` with relative id
`svc3`. -/
def exampleBodyC4 : ImageBody :=
  { id := "img.jpg", image_type := "Image",
    service := [⟨"svc2", "ImageService2"⟩, ⟨"svc3", "ImageService3"⟩] }

/-- A one-canvas manifest around `exampleBodyC4`. -/
def exampleManifestC4 : Manifest :=
  { label := .null, metadata := none,
    items := [{ label := .null, items := [{ items := [⟨.image exampleBodyC4⟩] }] }] }

/-- A manifest whose single service id is absolute and already ends with
`/info.json`. -/
def exampleManifestC4b : Manifest :=
  { label := .null, metadata := none,
    items := [{ label := .null, items := [{ items := [⟨.image
      { id := "irrelevant.jpg", image_type := "Image",
        service := [⟨"https://example.org/iiif/img/info.json", "ImageService3"⟩] }⟩] }] }] }

end Dezoomify

deriving instance DecidableEq for Except

namespace Dezoomify

/-! ### Helper lemmas -/

/-- Wrapping addition is plain addition below the modulus. -/
theorem wadd_eq (a b : Nat) (h : a + b < U32) : wadd a b = a + b :=
  Nat.mod_eq_of_lt h

/-- Unrolling one step of the row blit loop. -/
theorem blitRow_succ (conv : Nat → Nat) (t : Tile) (mx my yy n : Nat)
    (img : Nat → Nat → Nat) :
    blitRow conv t mx my yy (n + 1) img =
      putPixel (blitRow conv t mx my yy n img) (wadd n mx) (wadd yy my)
        (conv (t.pix n yy)) := by
  unfold blitRow
  rw [List.range_succ, List.foldl_append]
  rfl

/-- The row blit loop writes exactly the pixels `(a, yy + my)` with
`mx ≤ a < mx + sx`. -/
theorem blitRow_char (conv : Nat → Nat) (t : Tile) (mx my yy : Nat)
    (hy : yy + my < U32) :
    ∀ sx : Nat, mx + sx ≤ U32 → ∀ img a b,
      blitRow conv t mx my yy sx img a b =
        if yy + my = b ∧ mx ≤ a ∧ a < mx + sx then conv (t.pix (a - mx) yy)
        else img a b := by
  intro sx
  induction sx with
  | zero =>
    intro _ img a b
    rw [if_neg (by omega)]
    rfl
  | succ n ih =>
    intro hle img a b
    rw [blitRow_succ, wadd_eq n mx (by omega), wadd_eq yy my hy]
    simp only [putPixel]
    rw [ih (by omega)]
    split_ifs <;> first
      | rfl
      | omega
      | (have hax : a - mx = n := by omega
         rw [hax])

/-- Unrolling one step of the outer blit loop. -/
theorem blitN_succ (conv : Nat → Nat) (t : Tile) (mx my sx n : Nat)
    (img : Nat → Nat → Nat) :
    blitN conv t mx my sx (n + 1) img =
      blitRow conv t mx my n sx (blitN conv t mx my sx n img) := by
  unfold blitN
  rw [List.range_succ, List.foldl_append]
  rfl

/-- The blit loop writes exactly the half-open rectangle
`[(mx, my), (mx + sx, my + sy))`, reading the tile pixel at the relative
coordinates, and leaves every other pixel unchanged. -/
theorem blitN_char (conv : Nat → Nat) (t : Tile) (mx my sx : Nat)
    (hx : mx + sx ≤ U32) :
    ∀ sy : Nat, my + sy ≤ U32 → ∀ img a b,
      blitN conv t mx my sx sy img a b =
        if my ≤ b ∧ b < my + sy ∧ mx ≤ a ∧ a < mx + sx
        then conv (t.pix (a - mx) (b - my)) else img a b := by
  intro sy
  induction sy with
  | zero =>
    intro _ img a b
    rw [if_neg (by omega)]
    rfl
  | succ n ih =>
    intro hle img a b
    rw [blitN_succ, blitRow_char conv t mx my n (by omega) sx hx, ih (by omega)]
    split_ifs <;> first
      | rfl
      | omega
      | (have hbn : b - my = n := by omega
         rw [hbn])

/-! ### Claim theorems -/

/-- Claim C1: adding a tile whose origin fits inside the canvas succeeds, and
the call writes exactly the half-open rectangle from the tile position `p` to
`min(p + size, canvas_size)` (with the converted tile pixels), leaving every
canvas pixel outside that rectangle unmodified. -/
theorem canvas_add_tile_frame (conv : Nat → Nat) (c : Canvas) (t : Tile)
    (hfit : t.position.fits_inside c.size = true)
    (hbx : t.position.x + t.width < U32) (hby : t.position.y + t.height < U32)
    (hCx : c.size.x < U32) (hCy : c.size.y < U32) :
    (c.add_tile conv t).2 = none ∧
    ∀ a b,
      (t.position.x ≤ a ∧ a < Nat.min (t.position.x + t.width) c.size.x ∧
          t.position.y ≤ b ∧ b < Nat.min (t.position.y + t.height) c.size.y →
        (c.add_tile conv t).1.img a b =
          conv (t.pix (a - t.position.x) (b - t.position.y))) ∧
      (¬ (t.position.x ≤ a ∧ a < Nat.min (t.position.x + t.width) c.size.x ∧
          t.position.y ≤ b ∧ b < Nat.min (t.position.y + t.height) c.size.y) →
        (c.add_tile conv t).1.img a b = c.img a b) := by
  have hfit' : t.position.x ≤ c.size.x ∧ t.position.y ≤ c.size.y := by
    simpa [Vec2d.fits_inside] using hfit
  have m1 : Nat.min (t.position.x + t.width) c.size.x ≤ c.size.x :=
    Nat.min_le_right _ _
  have m2 : t.position.x ≤ Nat.min (t.position.x + t.width) c.size.x :=
    le_min (Nat.le_add_right _ _) hfit'.1
  have m3 : Nat.min (t.position.y + t.height) c.size.y ≤ c.size.y :=
    Nat.min_le_right _ _
  have m4 : t.position.y ≤ Nat.min (t.position.y + t.height) c.size.y :=
    le_min (Nat.le_add_right _ _) hfit'.2
  have e1 : wadd t.position.x t.width = t.position.x + t.width :=
    wadd_eq _ _ hbx
  have e2 : wadd t.position.y t.height = t.position.y + t.height :=
    wadd_eq _ _ hby
  have hsx : wsub (Nat.min (t.position.x + t.width) c.size.x) t.position.x =
      Nat.min (t.position.x + t.width) c.size.x - t.position.x := by
    unfold wsub
    unfold U32 at *
    omega
  have hsy : wsub (Nat.min (t.position.y + t.height) c.size.y) t.position.y =
      Nat.min (t.position.y + t.height) c.size.y - t.position.y := by
    unfold wsub
    unfold U32 at *
    omega
  simp only [Canvas.add_tile, Tile.bottom_right, Tile.size, Vec2d.add,
    Vec2d.min, Vec2d.sub, hfit, eq_self_iff_true, if_true, e1, e2, hsx, hsy]
  refine ⟨trivial, ?_⟩
  intro a b
  have hx : t.position.x +
      (Nat.min (t.position.x + t.width) c.size.x - t.position.x) ≤ U32 := by
    unfold U32 at *
    omega
  have hy : t.position.y +
      (Nat.min (t.position.y + t.height) c.size.y - t.position.y) ≤ U32 := by
    unfold U32 at *
    omega
  rw [blitN_char conv t _ _ _ hx _ hy c.img a b]
  constructor
  · intro h
    rw [if_pos (by omega)]
  · intro h
    rw [if_neg (by omega)]

/-- Claim C1 witness: on the concrete 4x4 canvas and the 2x2 tile at (1, 1),
the call succeeds, pixel (2, 2) receives the tile pixel (1, 1) = 12, and
pixel (0, 0) keeps its old value 0. -/
theorem canvas_add_tile_frame_witness :
    (canvasW.add_tile id tileW).2 = none ∧
    (canvasW.add_tile id tileW).1.img 2 2 = 12 ∧
    (canvasW.add_tile id tileW).1.img 0 0 = 0 := by
  obtain ⟨h1, h2⟩ := canvas_add_tile_frame id canvasW tileW (by decide)
    (by decide) (by decide) (by decide) (by decide)
  exact ⟨h1, (h2 2 2).1 (by decide), (h2 0 0).2 (by decide)⟩

/-- Claim C2: `Canvas::add_tile` returns the `InvalidData` error
"tile too large for image" exactly when the tile's origin does not fit inside
the canvas size. -/
theorem canvas_add_tile_invalid_iff (conv : Nat → Nat) (c : Canvas) (t : Tile) :
    (c.add_tile conv t).2 = some "tile too large for image" ↔
      t.position.fits_inside c.size = false := by
  cases h : t.position.fits_inside c.size <;> simp [Canvas.add_tile, h]

/-- Claim C10: a rejected tile (origin outside the canvas) modifies no canvas
pixel, but when the canvas holds no ICC profile yet and the rejected tile
carries one, the call still stores the tile's profile — the error path is not
fully atomic. -/
theorem canvas_add_tile_reject_state (conv : Nat → Nat) (c : Canvas) (t : Tile)
    (hnf : t.position.fits_inside c.size = false) :
    (c.add_tile conv t).2 = some "tile too large for image" ∧
    (∀ a b, (c.add_tile conv t).1.img a b = c.img a b) ∧
    (c.icc_profile = none → t.icc_profile.isSome = true →
      (c.add_tile conv t).1.icc_profile = t.icc_profile) := by
  refine ⟨by simp [Canvas.add_tile, hnf], fun a b => by simp [Canvas.add_tile, hnf], ?_⟩
  intro h1 h2
  simp [Canvas.add_tile, hnf, h1, h2]

/-- Claim C10 witness: the out-of-canvas tile `tileBad` is rejected, leaves
pixel (1, 1) untouched, and still installs its ICC profile `[3]`. -/
theorem canvas_add_tile_reject_witness :
    (canvasW.add_tile id tileBad).2 = some "tile too large for image" ∧
    (canvasW.add_tile id tileBad).1.img 1 1 = 0 ∧
    (canvasW.add_tile id tileBad).1.icc_profile = some [3] := by
  obtain ⟨h1, h2, h3⟩ := canvas_add_tile_reject_state id canvasW tileBad (by decide)
  exact ⟨h1, h2 1 1, h3 rfl rfl⟩

/-- Claim C3: under no overflow (`p + s` and `C` representable) and
`min(p + s, C) ≥ p` componentwise, `max_size_in_rect p s C` equals
`min(p + s, C) - p` componentwise. -/
theorem max_size_in_rect_eq (p s C : Vec2d)
    (hx : p.x + s.x < U32) (hy : p.y + s.y < U32)
    (hCx : C.x < U32) (hCy : C.y < U32)
    (hpx : p.x ≤ Nat.min (p.x + s.x) C.x) (hpy : p.y ≤ Nat.min (p.y + s.y) C.y) :
    max_size_in_rect p s C =
      ⟨Nat.min (p.x + s.x) C.x - p.x, Nat.min (p.y + s.y) C.y - p.y⟩ := by
  have e1 : wadd p.x s.x = p.x + s.x := wadd_eq _ _ hx
  have e2 : wadd p.y s.y = p.y + s.y := wadd_eq _ _ hy
  have m1 : Nat.min (p.x + s.x) C.x ≤ C.x := Nat.min_le_right _ _
  have m2 : Nat.min (p.y + s.y) C.y ≤ C.y := Nat.min_le_right _ _
  unfold max_size_in_rect Vec2d.add Vec2d.min Vec2d.sub
  simp only [e1, e2, Vec2d.mk.injEq]
  unfold wsub
  unfold U32 at *
  constructor <;> omega

/-- Claim C3 witness: `max_size_in_rect (80,10) (50,50) (100,100) = (20,50)`. -/
theorem max_size_in_rect_eq_witness :
    max_size_in_rect ⟨80, 10⟩ ⟨50, 50⟩ ⟨100, 100⟩ = ⟨20, 50⟩ := by
  exact max_size_in_rect_eq ⟨80, 10⟩ ⟨50, 50⟩ ⟨100, 100⟩ (by decide) (by decide)
    (by decide) (by decide) (by decide) (by decide)

/-- Claim C8: for a non-empty collection of `n` candidates, the requested
image index (and analogously zoom-level index) `r` is used as-is when
`r < n`, and otherwise clamped to the last index `n - 1`. -/
theorem resolve_indices_clamp (r n : Nat) (h : 0 < n) :
    (r < n → resolve_image_index r n = r ∧ resolve_level_index r n = r) ∧
    (n ≤ r → resolve_image_index r n = n - 1 ∧ resolve_level_index r n = n - 1) := by
  unfold resolve_image_index resolve_level_index
  constructor
  · intro h1
    rw [if_pos h1]
    exact ⟨rfl, rfl⟩
  · intro h1
    rw [if_neg (Nat.not_lt.mpr h1)]
    exact ⟨rfl, rfl⟩

/-- Claim C8 witness: requesting index 5 among 3 candidates selects index 2. -/
theorem resolve_indices_clamp_witness :
    resolve_image_index 5 3 = 2 ∧ resolve_level_index 5 3 = 2 :=
  (resolve_indices_clamp 5 3 (by decide)).2 (by decide)

/-- Claim C5 counterexample: with a present but empty manifest label and no
other fragment, every fragment is empty or absent, yet `determine_title`
returns `some ""` rather than `none` — empty fragments are not dropped. -/
theorem determine_title_empty_not_dropped :
    determine_title ⟨"uri", some "", none, none, 0⟩ = some "" ∧
    determine_title ⟨"uri", some "", none, none, 0⟩ ≠ none := by
  constructor <;> decide

/-- Claim C5 (amended): for every `ExtractedImageInfo`, `determine_title`
joins the present (`some`) manifest, metadata and canvas fragments in that
order with `" - "`, dropping only a fragment equal to an already-included one
(empty fragments are kept like any other), and returns `none` exactly when
all three fragments are absent. -/
theorem determine_title_amended :
    (∀ i : ExtractedImageInfo, determine_title i = determine_title_spec i) ∧
    (∀ (uri : String) (idx : Nat) (m md cl : Option String),
      determine_title ⟨uri, m, md, cl, idx⟩ = none ↔
        m = none ∧ md = none ∧ cl = none) := by
  constructor
  · intro i
    obtain ⟨uri, m, md, cl, idx⟩ := i
    cases m <;> cases md <;> cases cl <;>
      simp only [determine_title, determine_title_spec, presentFragments,
        dedupKeepFirst, List.nil_append, List.cons_append, List.append_nil] <;>
      split_ifs <;> simp_all
  · intro uri idx m md cl
    cases m <;> cases md <;> cases cl <;>
      simp [determine_title, joinSep] <;> split_ifs <;> simp_all

/-- Claim C5 witness: the universal characterization instantiated on every
fragment pattern the amended claim distinguishes — three distinct fragments,
a single fragment, canvas equal to manifest, canvas equal to metadata, two
distinct fragments, and all fragments absent. -/
theorem determine_title_amended_witness :
    determine_title ⟨"u", some "A", some "B", some "C", 0⟩ = some "A - B - C" ∧
    determine_title ⟨"u", none, some "B", none, 0⟩ = some "B" ∧
    determine_title ⟨"u", some "X", none, some "X", 0⟩ = some "X" ∧
    determine_title ⟨"u", none, some "Y", some "Y", 0⟩ = some "Y" ∧
    determine_title ⟨"u", some "A", some "B", none, 0⟩ = some "A - B" ∧
    determine_title ⟨"u", none, none, none, 0⟩ = none := by
  have h := determine_title_amended.1
  refine ⟨?_, ?_, ?_, ?_, ?_, ?_⟩ <;> (rw [h]; decide)

/-- Claim C4: the service URI of a manifest image body is chosen preferring an
`ImageService3`, then an `ImageService2`, then any other image service (always
with a non-empty id); the chosen URI is resolved against the manifest URL and
`/info.json` is appended unless the resolved URI already ends with it.  In
particular, the manifest carrying both `svc2` (`ImageService2`) and `svc3`
(`ImageService3`) against base `https://example.org/` yields exactly one image
at `https://example.org/svc3/info.json`, and an absolute service id already
ending in `/info.json` is kept unchanged. -/
theorem iiif_service_priority :
    (∀ (services : List ImageService) (s : ImageService),
      services.find? (fun s => s.service_type == "ImageService3") = some s →
      s.id ≠ "" → chooseServiceId services = some s.id) ∧
    (∀ (services : List ImageService) (s : ImageService),
      services.find? (fun s => s.service_type == "ImageService3") = none →
      services.find? (fun s => s.service_type == "ImageService2") = some s →
      s.id ≠ "" → chooseServiceId services = some s.id) ∧
    (∀ (services : List ImageService) (s : ImageService),
      services.find? (fun s => s.service_type == "ImageService3") = none →
      services.find? (fun s => s.service_type == "ImageService2") = none →
      services.find?
          (fun s => strContains s.service_type "ImageService" && s.id != "") =
        some s →
      chooseServiceId services = some s.id) ∧
    exampleManifestC4.extract_image_infos "https://example.org/" =
      [{ image_uri := "https://example.org/svc3/info.json",
         manifest_label := none, metadata_title := none, canvas_label := none,
         canvas_index := 0 }] ∧
    exampleManifestC4b.extract_image_infos "https://unused.example.com/" =
      [{ image_uri := "https://example.org/iiif/img/info.json",
         manifest_label := none, metadata_title := none, canvas_label := none,
         canvas_index := 0 }] := by
  refine ⟨?_, ?_, ?_, by decide, by decide⟩
  · intro services s h hid
    unfold chooseServiceId
    rw [h]
    simp [hid]
  · intro services s h3 h2 hid
    unfold chooseServiceId
    rw [h3, h2]
    simp [hid]
  · intro services s h3 h2 hany
    unfold chooseServiceId
    rw [h3, h2, hany]
    simp

/-- Claim C4 witness: on the concrete service list of the scenario, the
`ImageService3` entry wins. -/
theorem iiif_service_priority_witness :
    chooseServiceId [⟨"svc2", "ImageService2"⟩, ⟨"svc3", "ImageService3"⟩] =
      some "svc3" :=
  iiif_service_priority.1 _ ⟨"svc3", "ImageService3"⟩ (by decide) (by decide)

/-- With no invalid line, the per-line loop returns exactly the claim-side
image of every kept line. -/
theorem parseLines_ok_images (fsExists : String → Bool) :
    ∀ l : List (Nat × String),
      firstInvalidList fsExists l = none →
      parseLines fsExists l = .ok (l.filterMap lineImage) := by
  intro l
  induction l with
  | nil => intro _; rfl
  | cons p rest ih =>
    intro hnone
    obtain ⟨num, line⟩ := p
    by_cases hskip : trimChars line.data = [] ∨ (trimChars line.data).head? = some '#'
    · have hrest : firstInvalidList fsExists rest = none := by
        simpa [firstInvalidList, List.findSome?_cons, lineCheck, hskip] using hnone
      have hp : parseLines fsExists ((num, line) :: rest) =
          parseLines fsExists rest := by
        simp [parseLines, hskip]
      rw [hp, ih hrest]
      congr 1
      simp [List.filterMap_cons, lineImage, hskip]
    · by_cases hval :
        validate_url_or_path fsExists ⟨(splitTok (trimChars line.data)).1⟩ = true
      · have hrest : firstInvalidList fsExists rest = none := by
          simpa [firstInvalidList, List.findSome?_cons, lineCheck, hskip, hval]
            using hnone
        have hrec := ih hrest
        simp [parseLines, hskip, hval, hrec, List.filterMap_cons, lineImage]
      · exfalso
        simp [firstInvalidList, List.findSome?_cons, lineCheck, hskip, hval]
          at hnone

/-- Claim C6: for every bulk-text input whose lines all validate,
`parse_text_urls` skips blank and `#` lines and maps every remaining line, in
order, to an image whose URL is the part before the first whitespace and
whose title is the custom remainder when present, else the URL's last
non-empty path segment without its extension, else `URL_<line>` (1-based).
Concretely: the spec's two-line scenario gives titles `image1` and
`manifest`; a custom title is kept verbatim; after a blank and a comment line
an empty-path URL falls back to `URL_3`; an existing local path and a
templated non-URL line (no path segments) fall back to `URL_1`. -/
theorem parse_text_urls_titles :
    (∀ (fsExists : String → Bool) (content : String),
      firstInvalidLine fsExists content = none →
      parse_text_urls fsExists content = .ok (bulkTextImages content)) ∧
    parse_text_urls (fun _ => false)
        "http://example.com/image1.jpg\nhttps://example.org/manifest.json" =
      .ok [⟨"http://example.com/image1.jpg", some "image1"⟩,
           ⟨"https://example.org/manifest.json", some "manifest"⟩] ∧
    parse_text_urls (fun _ => false)
        "http://example.com/image1.jpg My Custom Title" =
      .ok [⟨"http://example.com/image1.jpg", some "My Custom Title"⟩] ∧
    parse_text_urls (fun _ => false) "\n# comment\nhttp://example.com/" =
      .ok [⟨"http://example.com/", some "URL_3"⟩] ∧
    parse_text_urls (fun p => p == "local/file.tif") "local/file.tif" =
      .ok [⟨"local/file.tif", some "URL_1"⟩] ∧
    parse_text_urls (fun _ => false) "tile_\x7b\x7bX\x7d\x7d.jpg" =
      .ok [⟨"tile_\x7b\x7bX\x7d\x7d.jpg", some "URL_1"⟩] := by
  refine ⟨?_, by decide, by decide, by decide, by decide, by decide⟩
  intro fsExists content hnone
  exact parseLines_ok_images fsExists (linesOf content).enum hnone

/-- Claim C6 witness: the universal part applied to a concrete two-line input
(one comment, one URL), whose claim-side image list evaluates to the single
image titled `photo`. -/
theorem parse_text_urls_titles_witness :
    parse_text_urls (fun _ => false) "# x\nhttp://example.com/photo.png" =
      .ok (bulkTextImages "# x\nhttp://example.com/photo.png") ∧
    bulkTextImages "# x\nhttp://example.com/photo.png" =
      [⟨"http://example.com/photo.png", some "photo"⟩] :=
  ⟨parse_text_urls_titles.1 (fun _ => false) _ (by decide), by decide⟩

/-- The per-line loop errors exactly on the first invalid enumerated line,
carrying that line's 1-based number and offending token; with no invalid line
it returns a list. -/
theorem parseLines_error_iff (fsExists : String → Bool) :
    ∀ l : List (Nat × String),
      (∀ e, parseLines fsExists l = .error e ↔
        firstInvalidList fsExists l = some e) ∧
      (firstInvalidList fsExists l = none →
        ∃ urls, parseLines fsExists l = .ok urls) := by
  intro l
  induction l with
  | nil =>
    refine ⟨fun e => ?_, fun _ => ⟨[], rfl⟩⟩
    simp [parseLines, firstInvalidList]
  | cons p rest ih =>
    obtain ⟨num, line⟩ := p
    by_cases hskip : trimChars line.data = [] ∨ (trimChars line.data).head? = some '#'
    · have hp : parseLines fsExists ((num, line) :: rest) = parseLines fsExists rest := by
        simp [parseLines, hskip]
      have hf : firstInvalidList fsExists ((num, line) :: rest) =
          firstInvalidList fsExists rest := by
        simp [firstInvalidList, List.findSome?_cons, lineCheck, hskip]
      rw [hp, hf]
      exact ih
    · by_cases hval :
        validate_url_or_path fsExists ⟨(splitTok (trimChars line.data)).1⟩ = true
      · have hf : firstInvalidList fsExists ((num, line) :: rest) =
            firstInvalidList fsExists rest := by
          simp [firstInvalidList, List.findSome?_cons, lineCheck, hskip, hval]
        constructor
        · intro e
          rw [hf]
          cases hpr : parseLines fsExists rest with
          | ok urls =>
            have h1 : parseLines fsExists ((num, line) :: rest) =
                .ok (⟨⟨(splitTok (trimChars line.data)).1⟩,
                  match (splitTok (trimChars line.data)).2 with
                  | some tc => some ⟨tc⟩
                  | none => extract_title_from_url
                      ⟨(splitTok (trimChars line.data)).1⟩ (num + 1)⟩ :: urls) := by
              simp [parseLines, hskip, hval, hpr]
            rw [h1]
            have := (ih.1 e)
            rw [hpr] at this
            simp only [reduceCtorEq, false_iff] at this ⊢
            exact fun hcontra => this hcontra
          | error e' =>
            have h1 : parseLines fsExists ((num, line) :: rest) = .error e' := by
              simp [parseLines, hskip, hval, hpr]
            rw [h1]
            have := ih.1 e
            rw [hpr] at this
            exact this
        · intro hnone
          rw [hf] at hnone
          obtain ⟨urls, hurls⟩ := ih.2 hnone
          refine ⟨⟨⟨(splitTok (trimChars line.data)).1⟩,
            match (splitTok (trimChars line.data)).2 with
            | some tc => some ⟨tc⟩
            | none => extract_title_from_url
                ⟨(splitTok (trimChars line.data)).1⟩ (num + 1)⟩ :: urls, ?_⟩
          simp [parseLines, hskip, hval, hurls]
      · have h1 : parseLines fsExists ((num, line) :: rest) =
            .error ⟨num + 1, ⟨(splitTok (trimChars line.data)).1⟩⟩ := by
          simp [parseLines, hskip, hval]
        have hf : firstInvalidList fsExists ((num, line) :: rest) =
            some ⟨num + 1, ⟨(splitTok (trimChars line.data)).1⟩⟩ := by
          simp [firstInvalidList, List.findSome?_cons, lineCheck, hskip, hval]
        refine ⟨fun e => ?_, fun hnone => ?_⟩
        · rw [h1, hf]
          simp
        · rw [hf] at hnone
          exact absurd hnone (by simp)

/-- Claim C7: `parse_text_urls` returns an error exactly when some non-blank,
non-comment line's first whitespace-separated token is neither a parseable
URL, nor an existing local path, nor a templated URL; the error carries the
1-based number of the first such line and the offending token, and no image
list is produced in that case. -/
theorem parse_text_urls_error_iff (fsExists : String → Bool) (content : String) :
    (∀ e, parse_text_urls fsExists content = .error e ↔
      firstInvalidLine fsExists content = some e) ∧
    (firstInvalidLine fsExists content = none →
      ∃ urls, parse_text_urls fsExists content = .ok urls) :=
  parseLines_error_iff fsExists (linesOf content).enum

/-- Claim C7 witness: the single invalid line `not_a_valid_url` produces the
error with line number 1 and the offending token. -/
theorem parse_text_urls_error_iff_witness :
    parse_text_urls (fun _ => false) "http://example.com/a\nnot_a_valid_url" =
      .error ⟨2, "not_a_valid_url"⟩ ∧
    parse_text_urls (fun _ => false) "not_a_valid_url" =
      .error ⟨1, "not_a_valid_url"⟩ ∧
    (∃ urls, parse_text_urls (fun _ => false) "http://example.com/a" =
      .ok urls) := by
  refine ⟨?_, ?_, ?_⟩
  · exact ((parse_text_urls_error_iff (fun _ => false)
      "http://example.com/a\nnot_a_valid_url").1 ⟨2, "not_a_valid_url"⟩).mpr
      (by decide)
  · exact ((parse_text_urls_error_iff (fun _ => false)
      "not_a_valid_url").1 ⟨1, "not_a_valid_url"⟩).mpr (by decide)
  · exact (parse_text_urls_error_iff (fun _ => false)
      "http://example.com/a").2 (by decide)

/-- After the first tile, `add_tile` always succeeds and never touches the
header again. -/
theorem addAll_header_stable (ts : List Tile) :
    ∀ e : PngEncoder, e.first_tile = false → e.pixel_streamer.isSome = true →
      ∃ e2, e.addAll ts = some e2 ∧ e2.headerMeta = e.headerMeta := by
  induction ts with
  | nil =>
    intro e _ _
    exact ⟨e, rfl, rfl⟩
  | cons t ts ih =>
    intro e hf hs
    obtain ⟨l, hl⟩ := Option.isSome_iff_exists.mp hs
    have hstep : e.add_tile t = some { e with pixel_streamer := some (l ++ [t]) } := by
      simp [PngEncoder.add_tile, hf, hl]
    obtain ⟨e2, h2, h3⟩ :=
      ih { e with pixel_streamer := some (l ++ [t]) } hf rfl
    refine ⟨e2, ?_, h3⟩
    simp [PngEncoder.addAll, hstep, h2]

/-- Claim C9: the streaming PNG encoder writes its header exactly once — when
the first tile arrives it embeds that tile's ICC profile and EXIF metadata,
and the header metadata stays that of the first tile no matter which tiles
follow; finalizing an encoder that never received a tile writes the header
with no metadata. -/
theorem png_header_from_first_tile :
    (∀ (size : Vec2d) (t : Tile) (ts : List Tile),
      ∃ e, (PngEncoder.new size).addAll (t :: ts) = some e ∧
        e.headerMeta = some (t.icc_profile, t.exif_metadata)) ∧
    (∀ size : Vec2d,
      (PngEncoder.new size).finalize.headerMeta = some (none, none)) := by
  constructor
  · intro size t ts
    have h1 : (PngEncoder.new size).add_tile t =
        some { pixel_streamer := some [t],
               headerMeta := some (t.icc_profile, t.exif_metadata),
               size := size, first_tile := false } := by
      simp [PngEncoder.new, PngEncoder.add_tile,
        PngEncoder.write_header_with_metadata]
    obtain ⟨e2, h2, h3⟩ := addAll_header_stable ts
      { pixel_streamer := some [t],
        headerMeta := some (t.icc_profile, t.exif_metadata),
        size := size, first_tile := false } rfl rfl
    refine ⟨e2, ?_, by simpa using h3⟩
    simp [PngEncoder.addAll, h1, h2]
  · intro size
    rfl

end Dezoomify
